import Mathlib

/-!
Shallow embedding of the article repository adapter of
notelify-articles-svc (`internal/adapters/repository/dynamodb/dynamodb.go`).

The adapter is a thin translation layer between `domain.Article` records and
DynamoDB items.  We model the DynamoDB table as a list of items keyed by the
`article_id` attribute, the AWS attribute (un)marshaller at its boundary, and
network / backend failures of the individual client calls (`GetItem`,
`PutItem`, `DeleteItem`, `Scan`, `Query`) as explicit fault oracles, so that
both the happy paths and every error path of the Go code are represented.
-/

set_option autoImplicit false

/-- Modelled from the spec: the embedded author reference of an article
(`author_id` plus display metadata, §3); the `domain` package defining it is
not part of the sources, only its use sites (`article.Author.ID`) are. -/
structure AuthorInfo where
  ID : String
  Name : String
deriving DecidableEq

/-- Modelled from the spec: the `domain.Article` record (§3) — identity
`article_id` plus `title`, `subtitle`, `introduction`, `body`, `tags`,
`publish_date` and the embedded author.  Field names follow the use sites
visible in the adapter (`article.ArticleID`, `article.Author`). -/
structure Article where
  ArticleID : String
  Title : String
  Subtitle : String
  Introduction : String
  Body : String
  Tags : List String
  PublishDate : String
  Author : AuthorInfo
deriving DecidableEq

/-- The Go zero value `domain.Article{}` returned on the error paths of
`GetArticleByID`. -/
def Article.zero : Article :=
  { ArticleID := "", Title := "", Subtitle := "", Introduction := "", Body := "",
    Tags := [], PublishDate := "", Author := { ID := "", Name := "" } }

/-- A DynamoDB item of the content table: either the marshalled form of an
article (which `dynamodbattribute.UnmarshalMap` decodes back), or an item
whose decoding fails with the given message (modelling marshalling/decoding
failures at the store boundary). -/
inductive Item where
  | good (a : Article)
  | bad (key msg : String)
deriving DecidableEq

/-- The value of the item's `article_id` key attribute (spec §6: item key
`article_id`; the adapter addresses items by this key in `GetItem` and
`DeleteItem`). -/
def Item.key : Item → String
  | .good a => a.ArticleID
  | .bad k _ => k

/-- Modelled from the spec: the attribute names of a stored item, 1:1 with the
Article fields (§6).  The names are the ones the adapter itself uses: the
`article_id` key of `GetItem`/`DeleteItem` and the scan projection list. -/
def itemAttrs (_ : Item) : List String :=
  ["article_id", "title", "subtitle", "introduction", "body", "tags",
   "publish_date", "author_info"]

/-- `dynamodbattribute.MarshalMap` on a `domain.Article`: produces the item
keyed by the article's id.  (Marshalling a plain struct of strings and string
lists cannot fail, so the adapter's marshal-error branches are unreachable.) -/
def marshalMap (a : Article) : Item := Item.good a

/-- `dynamodbattribute.UnmarshalMap`: decodes a well-formed item back to the
article it was marshalled from, and fails on an undecodable item. -/
def unmarshalMap : Item → Except String Article
  | .good a => Except.ok a
  | .bad _ m => Except.error m

/-- The DynamoDB content table: the set of stored items.  List order stands
for the store-defined (unspecified) scan order. -/
abbrev Table := List Item

/-- `PutItem`: full overwrite of the item with the same `article_id` key
(no uniqueness check). -/
def putItemTable (t : Table) (it : Item) : Table :=
  it :: List.filter (fun j => j.key != it.key) t

/-- `GetItem` by `article_id` key: the stored item, or `none` (Go:
`result.Item == nil`) when absent. -/
def getItemTable (t : Table) (article_id : String) : Option Item :=
  List.find? (fun j => j.key == article_id) t

/-- `DeleteItem` by `article_id` key: removes the item; a no-op when the key
is absent (DynamoDB delete is idempotent). -/
def deleteItemTable (t : Table) (article_id : String) : Table :=
  List.filter (fun j => j.key != article_id) t

/-- Fault oracles for the network/backend failures of the individual DynamoDB
client calls made by the adapter; `none` means the call succeeds. -/
structure Faults where
  getItemErr : Option String
  putItemErr : Option String
  deleteItemErr : String → Option String
  scanErr : Option String

/-- The fault-free scenario: every store call succeeds. -/
def noFaults : Faults :=
  { getItemErr := none, putItemErr := none, deleteItemErr := fun _ => none,
    scanErr := none }

/-- The not-found message `fmt.Sprintf("Article with id [ %s ] not found",
article_id)` of `GetArticleByID`. -/
def notFoundMsg (article_id : String) : String :=
  "Article with id [ " ++ article_id ++ " ] not found"

/-- `GetArticleByID` (dynamodb.go:56-79).  Returns the Go pair
(article pointer, error); a pointer is `Option Article` with `none` for nil.
Every error path returns `&domain.Article{}` together with the error. -/
def GetArticleByID (sc : Faults) (t : Table) (article_id : String) :
    Option Article × Option String :=
  match sc.getItemErr with
  | some e => (some Article.zero, some e)
  | none =>
    match getItemTable t article_id with
    | none => (some Article.zero, some (notFoundMsg article_id))
    | some item =>
      match unmarshalMap item with
      | Except.error e => (some Article.zero, some e)
      | Except.ok article => (some article, none)

/-- `CreateArticle` (dynamodb.go:37-54): marshal the article, `PutItem` it,
and return the argument unchanged on success; `nil, err` on failure.  The
state threading makes the table the only thing the call changes. -/
def CreateArticle (sc : Faults) (t : Table) (article : Article) :
    Table × (Option Article × Option String) :=
  let entityParsed := marshalMap article
  match sc.putItemErr with
  | some e => (t, (none, some e))
  | none => (putItemTable t entityParsed, (some article, none))

/-- The scan filter expression `attribute_not_exists(ArticleID)` built by
`GetArticles` (dynamodb.go:137), evaluated on a stored item. -/
def scanFilter (it : Item) : Bool :=
  !(List.contains (itemAttrs it) "ArticleID")

/-- The projection list of the scan (dynamodb.go:138-147): all eight article
attributes. -/
def scanProjection : List String :=
  ["article_id", "title", "subtitle", "introduction", "body", "tags",
   "publish_date", "author_info"]

/-- The unmarshalling loop of `GetArticles` (dynamodb.go:165-175): decode the
scanned items in order, aborting with the error (and discarding the partial
result) at the first item that fails to decode. -/
def unmarshalAll : List Item → Except String (List Article)
  | [] => Except.ok []
  | it :: rest =>
    match unmarshalMap it with
    | Except.error e => Except.error e
    | Except.ok a =>
      match unmarshalAll rest with
      | Except.error e => Except.error e
      | Except.ok as => Except.ok (a :: as)

/-- `GetArticles` (dynamodb.go:135-177): one `Scan` of the table (no
pagination loop) with the `attribute_not_exists(ArticleID)` filter and the
all-fields projection, then the decode loop.  The expression builder cannot
fail on this non-empty filter and projection, so that branch is unreachable.
`Except.error` models the Go `nil, err` return. -/
def GetArticles (sc : Faults) (t : Table) : Except String (List Article) :=
  match sc.scanErr with
  | some e => Except.error e
  | none => unmarshalAll (List.filter scanFilter t)

/-- `GetArticlesByAuthor` (dynamodb.go:81-94): fetch everything via
`GetArticles`, propagate its error, otherwise keep the articles whose
`Author.ID` matches. -/
def GetArticlesByAuthor (sc : Faults) (t : Table) (author_id : String) :
    Except String (List Article) :=
  match GetArticles sc t with
  | Except.error e => Except.error e
  | Except.ok articles =>
    Except.ok (List.filter (fun article => article.Author.ID == author_id) articles)

/-- Control leaving a Go function: either a normal return of a value to the
caller, or `log.Fatalf`, which terminates the whole process so that nothing
is ever returned. -/
inductive GoReturn (α : Type) where
  | ret (value : α)
  | fatalExit (msg : String)
deriving DecidableEq

/-- The result-processing loop of `GetArticlesByTag` (dynamodb.go:121-131):
decode each returned item, calling `log.Fatalf("Error unmarshaling item: %v")`
— process termination — at the first decode failure. -/
def tagUnmarshalLoop : List Item → GoReturn (List Article)
  | [] => GoReturn.ret []
  | it :: rest =>
    match unmarshalMap it with
    | Except.error e => GoReturn.fatalExit ("Error unmarshaling item: " ++ e)
    | Except.ok a =>
      match tagUnmarshalLoop rest with
      | GoReturn.fatalExit m => GoReturn.fatalExit m
      | GoReturn.ret as => GoReturn.ret (a :: as)

/-- `GetArticlesByTag` (dynamodb.go:96-133).  The `Query` against the
externally provisioned `TagsIndex` is modelled by its outcome `queryRes`
(the matching items, or a store failure).  On a query failure the code calls
`log.Fatalf("Query error: %v", err)` — the process exits and no error is
returned to the caller; likewise for each per-item decode failure.  Only on
full success does it return `&articles, nil`. -/
def GetArticlesByTag (queryRes : Except String (List Item)) (_tag : String) :
    GoReturn (Option (List Article) × Option String) :=
  match queryRes with
  | Except.error e => GoReturn.fatalExit ("Query error: " ++ e)
  | Except.ok items =>
    match tagUnmarshalLoop items with
    | GoReturn.fatalExit m => GoReturn.fatalExit m
    | GoReturn.ret articles => GoReturn.ret (some articles, none)

/-- `UpdateArticle` (dynamodb.go:179-197): marshal and `PutItem` exactly as
`CreateArticle` does, then re-read via `GetArticleByID article.ArticleID` and
return that freshly read value. -/
def UpdateArticle (sc : Faults) (t : Table) (article : Article) :
    Table × (Option Article × Option String) :=
  let entityParsed := marshalMap article
  match sc.putItemErr with
  | some e => (t, (none, some e))
  | none =>
    let t2 := putItemTable t entityParsed
    (t2, GetArticleByID sc t2 article.ArticleID)

/-- `DeleteArticle` (dynamodb.go:199-217): `DeleteItem` by id; on a client
failure the response is nil and the error is returned, otherwise nil error —
also when no item with the id existed. -/
def DeleteArticle (sc : Faults) (t : Table) (article_id : String) :
    Table × Option String :=
  match sc.deleteItemErr article_id with
  | some e => (t, some e)
  | none => (deleteItemTable t article_id, none)

/-- `DeleteArticleAll` (dynamodb.go:219-229): list everything via
`GetArticles` (aborting with its error), then delete each listed article in
sequence, discarding every `DeleteArticle` error, and return nil. -/
def DeleteArticleAll (sc : Faults) (t : Table) : Table × Option String :=
  match GetArticles sc t with
  | Except.error e => (t, some e)
  | Except.ok articles =>
    (List.foldl (fun tt article => (DeleteArticle sc tt article.ArticleID).1) t articles,
     none)

/-- A concrete author for witnesses. -/
def sampleAuthor : AuthorInfo := { ID := "auth1", Name := "Ann" }

/-- A concrete article for witnesses. -/
def sampleArticle : Article :=
  { ArticleID := "a1", Title := "T", Subtitle := "S", Introduction := "I",
    Body := "B", Tags := ["go", "db"], PublishDate := "2023-01-01",
    Author := sampleAuthor }

/-! ## Helper lemmas -/

theorem scanFilter_true (it : Item) : scanFilter it = true := rfl

theorem filter_scanFilter_eq (t : Table) : List.filter scanFilter t = t :=
  List.filter_eq_self.mpr (fun a _ => scanFilter_true a)

theorem unmarshalAll_map_good (ts : List Article) :
    unmarshalAll (List.map Item.good ts) = Except.ok ts := by
  induction ts with
  | nil => rfl
  | cons a rest ih => simp [unmarshalAll, unmarshalMap, ih]

theorem getArticles_map_good (sc : Faults) (ts : List Article)
    (h : sc.scanErr = none) :
    GetArticles sc (List.map Item.good ts) = Except.ok ts := by
  simp [GetArticles, h, filter_scanFilter_eq, unmarshalAll_map_good]

theorem getItem_putItem (t : Table) (it : Item) :
    getItemTable (putItemTable t it) it.key = some it := by
  simp [getItemTable, putItemTable, List.find?_cons]

theorem getItem_deleteItem (t : Table) (id : String) :
    getItemTable (deleteItemTable t id) id = none := by
  simp only [getItemTable, deleteItemTable]
  rw [List.find?_eq_none]
  intro x hx
  simp only [List.mem_filter, bne_iff_ne, ne_eq] at hx
  simp [beq_iff_eq, hx.2]

/-! ## Claim theorems -/

/-- Claim C1: every article successfully persisted via CreateArticle is
returned by a subsequent GetArticleByID on its id, equal in every field,
when there are no intervening writes and no store failure. -/
theorem create_then_get_roundtrip (sc : Faults) (t : Table) (a : Article)
    (hput : sc.putItemErr = none) (hget : sc.getItemErr = none) :
    (CreateArticle sc t a).2 = (some a, none) ∧
    GetArticleByID sc (CreateArticle sc t a).1 a.ArticleID = (some a, none) := by
  constructor
  · simp [CreateArticle, hput]
  · have hfind : getItemTable (putItemTable t (Item.good a)) a.ArticleID
        = some (Item.good a) := getItem_putItem t (Item.good a)
    simp [CreateArticle, GetArticleByID, hput, hget, marshalMap, hfind, unmarshalMap]

theorem create_then_get_roundtrip_witness :
    (CreateArticle noFaults [] sampleArticle).2 = (some sampleArticle, none) ∧
    GetArticleByID noFaults (CreateArticle noFaults [] sampleArticle).1
      sampleArticle.ArticleID = (some sampleArticle, none) :=
  create_then_get_roundtrip noFaults [] sampleArticle rfl rfl

/-- Claim C2, evaluated at the failing inputs: a store failure during
GetArticlesByTag is not surfaced to the caller at all — a failed query call
and a failed per-item decode both hit log.Fatalf and terminate the process,
so no error value is ever returned. -/
theorem getArticlesByTag_fatal_on_store_failure :
    GetArticlesByTag (Except.error "boom") "go"
      = GoReturn.fatalExit ("Query error: " ++ "boom") ∧
    GetArticlesByTag (Except.ok [Item.bad "a1" "decode failed"]) "go"
      = GoReturn.fatalExit ("Error unmarshaling item: " ++ "decode failed") :=
  ⟨rfl, rfl⟩

/-- Claim C3: when the GetItem call succeeds and no item with the id exists,
GetArticleByID fails with exactly the not-found error, whose message carries
the id, and in no other way. -/
theorem getArticleByID_absent_notFound (sc : Faults) (t : Table) (id : String)
    (hget : sc.getItemErr = none) (habsent : getItemTable t id = none) :
    GetArticleByID sc t id = (some Article.zero, some (notFoundMsg id)) ∧
    ∃ pre post, notFoundMsg id = pre ++ id ++ post := by
  refine ⟨?_, "Article with id [ ", " ] not found", rfl⟩
  simp [GetArticleByID, hget, habsent]

theorem getArticleByID_absent_notFound_witness :
    GetArticleByID noFaults [] "missing"
      = (some Article.zero, some (notFoundMsg "missing")) ∧
    ∃ pre post, notFoundMsg "missing" = pre ++ "missing" ++ post :=
  getArticleByID_absent_notFound noFaults [] "missing" rfl rfl

theorem foldl_delete_all (ts : List Article) (t : Table)
    (h : ∀ it ∈ t, ∃ a, a ∈ ts ∧ Item.key it = a.ArticleID) :
    List.foldl (fun tt a => deleteItemTable tt a.ArticleID) t ts = [] := by
  induction ts generalizing t with
  | nil =>
    cases t with
    | nil => rfl
    | cons it rest =>
      obtain ⟨a, ha, -⟩ := h it (by simp)
      exact absurd ha (List.not_mem_nil a)
  | cons b ts ih =>
    simp only [List.foldl_cons]
    apply ih
    intro it hit
    simp only [deleteItemTable, List.mem_filter, bne_iff_ne, ne_eq] at hit
    obtain ⟨hmem, hkey⟩ := hit
    obtain ⟨c, hc, hkeyc⟩ := h it hmem
    rcases List.mem_cons.mp hc with rfl | hcts
    · exact absurd hkeyc hkey
    · exact ⟨c, hcts, hkeyc⟩

/-- Claim C4: GetArticlesByAuthor fetches the full set via GetArticles and
filters client-side, returning exactly the subset whose embedded author id
matches — and an empty sequence, not an error, when nothing matches. -/
theorem getArticlesByAuthor_filters (sc : Faults) (t : Table) (x : String)
    (as : List Article) (h : GetArticles sc t = Except.ok as) :
    GetArticlesByAuthor sc t x
      = Except.ok (List.filter (fun a => a.Author.ID == x) as) ∧
    ((∀ a ∈ as, a.Author.ID ≠ x) → GetArticlesByAuthor sc t x = Except.ok []) := by
  constructor
  · simp [GetArticlesByAuthor, h]
  · intro hnone
    have hfil : List.filter (fun a => a.Author.ID == x) as = [] := by
      rw [List.filter_eq_nil_iff]
      intro a ha
      simp [hnone a ha]
    simp [GetArticlesByAuthor, h, hfil]

theorem getArticlesByAuthor_filters_witness :
    (GetArticlesByAuthor noFaults [Item.good sampleArticle] "nobody"
      = Except.ok (List.filter (fun a => a.Author.ID == "nobody") [sampleArticle]) ∧
    ((∀ a ∈ [sampleArticle], a.Author.ID ≠ "nobody") →
      GetArticlesByAuthor noFaults [Item.good sampleArticle] "nobody" = Except.ok [])) :=
  getArticlesByAuthor_filters noFaults [Item.good sampleArticle] "nobody"
    [sampleArticle] rfl

/-- Claim C5: UpdateArticle writes through the same put mechanism as
CreateArticle (identical resulting table), then re-reads by the article's id
and returns that freshly read value; hence an update followed by a read by
the same id yields the updated record, not any previously stored version. -/
theorem updateArticle_overwrite_then_get (sc : Faults) (t : Table) (a : Article)
    (hput : sc.putItemErr = none) (hget : sc.getItemErr = none) :
    (UpdateArticle sc t a).1 = (CreateArticle sc t a).1 ∧
    (UpdateArticle sc t a).2
      = GetArticleByID sc (UpdateArticle sc t a).1 a.ArticleID ∧
    (UpdateArticle sc t a).2 = (some a, none) ∧
    GetArticleByID sc (UpdateArticle sc t a).1 a.ArticleID = (some a, none) := by
  have hfind : getItemTable (putItemTable t (Item.good a)) a.ArticleID
      = some (Item.good a) := getItem_putItem t (Item.good a)
  refine ⟨?_, ?_, ?_, ?_⟩ <;>
    simp [UpdateArticle, CreateArticle, GetArticleByID, hput, hget, marshalMap,
      hfind, unmarshalMap]

theorem updateArticle_overwrite_then_get_witness :
    ((UpdateArticle noFaults [] sampleArticle).1
      = (CreateArticle noFaults [] sampleArticle).1 ∧
    (UpdateArticle noFaults [] sampleArticle).2
      = GetArticleByID noFaults (UpdateArticle noFaults [] sampleArticle).1
          sampleArticle.ArticleID ∧
    (UpdateArticle noFaults [] sampleArticle).2 = (some sampleArticle, none) ∧
    GetArticleByID noFaults (UpdateArticle noFaults [] sampleArticle).1
      sampleArticle.ArticleID = (some sampleArticle, none)) :=
  updateArticle_overwrite_then_get noFaults [] sampleArticle rfl rfl

/-- Claim C6: DeleteArticleAll lists all articles and deletes each in
sequence; a failed listing aborts and returns that store error with the table
untouched; but every per-item delete failure is ignored — with all deletes
failing the call still reports success and the table is left undeleted (no
rollback), and with no failures the table is emptied. -/
theorem deleteArticleAll_semantics (t : Table) (ts : List Article) (e : String)
    (df : String → Option String) :
    DeleteArticleAll
        { getItemErr := none, putItemErr := none, deleteItemErr := df,
          scanErr := some e } t = (t, some e) ∧
    (DeleteArticleAll
        { getItemErr := none, putItemErr := none, deleteItemErr := df,
          scanErr := none } (List.map Item.good ts)).2 = none ∧
    DeleteArticleAll
        { getItemErr := none, putItemErr := none,
          deleteItemErr := fun _ => none, scanErr := none }
        (List.map Item.good ts) = ([], none) ∧
    DeleteArticleAll
        { getItemErr := none, putItemErr := none, deleteItemErr := df,
          scanErr := none } (Item.bad "k" "m" :: List.map Item.good ts)
      = (Item.bad "k" "m" :: List.map Item.good ts, some "m") := by
  refine ⟨by simp [DeleteArticleAll, GetArticles], ?_, ?_, ?_⟩
  · have hga := getArticles_map_good
      { getItemErr := none, putItemErr := none, deleteItemErr := df,
        scanErr := none } ts rfl
    simp [DeleteArticleAll, hga]
  · have hga := getArticles_map_good
      { getItemErr := none, putItemErr := none,
        deleteItemErr := fun _ => none, scanErr := none } ts rfl
    have hfold : List.foldl (fun tt a => deleteItemTable tt a.ArticleID)
        (List.map Item.good ts) ts = [] := by
      apply foldl_delete_all
      intro it hit
      obtain ⟨a, ha, rfl⟩ := List.mem_map.mp hit
      exact ⟨a, ha, rfl⟩
    simp [DeleteArticleAll, hga, DeleteArticle, hfold]
  · simp [DeleteArticleAll, GetArticles, filter_scanFilter_eq, unmarshalAll,
      unmarshalMap]

/-- Claim C7: GetArticles issues one scan whose filter expression excludes no
stored item (every item passes, since no item carries an `ArticleID`
attribute) and whose projection lists every item attribute, so the scan
returns every stored article. -/
theorem getArticles_returns_all (sc : Faults) (t : Table) (ts : List Article)
    (it : Item) (hscan : sc.scanErr = none) :
    scanFilter it = true ∧
    List.filter scanFilter t = t ∧
    itemAttrs it = scanProjection ∧
    GetArticles sc (List.map Item.good ts) = Except.ok ts :=
  ⟨scanFilter_true it, filter_scanFilter_eq t, rfl, getArticles_map_good sc ts hscan⟩

theorem getArticles_returns_all_witness :
    (scanFilter (Item.bad "k" "m") = true ∧
    List.filter scanFilter [Item.bad "k" "m"] = [Item.bad "k" "m"] ∧
    itemAttrs (Item.bad "k" "m") = scanProjection ∧
    GetArticles noFaults (List.map Item.good [sampleArticle])
      = Except.ok [sampleArticle]) :=
  getArticles_returns_all noFaults [Item.bad "k" "m"] [sampleArticle]
    (Item.bad "k" "m") rfl

/-- Claim C8: DeleteArticle returns no error even when no item with the id
exists — it only fails when the DeleteItem call itself fails — and a
successful delete followed by GetArticleByID on the same id yields the
not-found error carrying the id. -/
theorem deleteArticle_idempotent_then_notFound (sc : Faults) (t : Table)
    (id : String) (hdel : sc.deleteItemErr id = none)
    (hget : sc.getItemErr = none) :
    DeleteArticle sc t id = (deleteItemTable t id, none) ∧
    GetArticleByID sc (DeleteArticle sc t id).1 id
      = (some Article.zero, some (notFoundMsg id)) := by
  have hd : DeleteArticle sc t id = (deleteItemTable t id, none) := by
    simp [DeleteArticle, hdel]
  refine ⟨hd, ?_⟩
  simp [hd, GetArticleByID, hget, getItem_deleteItem]

theorem deleteArticle_idempotent_then_notFound_witness :
    (DeleteArticle noFaults [Item.good sampleArticle] "a1"
      = (deleteItemTable [Item.good sampleArticle] "a1", none) ∧
    GetArticleByID noFaults (DeleteArticle noFaults [Item.good sampleArticle] "a1").1 "a1"
      = (some Article.zero, some (notFoundMsg "a1"))) :=
  deleteArticle_idempotent_then_notFound noFaults [Item.good sampleArticle]
    "a1" rfl rfl

/-- Claim C9: GetArticleByID never returns a nil article pointer; whenever it
returns an error — store-call failure, absent item, or decode failure — the
accompanying pointer is to the zero-valued Article. -/
theorem getArticleByID_nonNil_zero_on_error (sc : Faults) (t : Table)
    (id : String) :
    (GetArticleByID sc t id).1 ≠ none ∧
    ((GetArticleByID sc t id).2 ≠ none
      → (GetArticleByID sc t id).1 = some Article.zero) := by
  unfold GetArticleByID
  cases hge : sc.getItemErr with
  | some e => simp
  | none =>
    cases hgt : getItemTable t id with
    | none => simp
    | some item =>
      cases item with
      | good a => simp [unmarshalMap]
      | bad k m => simp [unmarshalMap]

theorem getArticleByID_nonNil_zero_on_error_witness :
    ((GetArticleByID noFaults [] "x").1 ≠ none ∧
    (GetArticleByID noFaults [] "x").1 = some Article.zero) :=
  ⟨(getArticleByID_nonNil_zero_on_error noFaults [] "x").1,
   (getArticleByID_nonNil_zero_on_error noFaults [] "x").2 (by
     simp [GetArticleByID, noFaults, getItemTable])⟩

/-- Claim C10: CreateArticle and UpdateArticle take the article record by
value and thread every state change through the table, so the caller's
argument is unchanged by the call; the item each one writes is exactly the
marshalled input record, and on success CreateArticle returns exactly the
record it was given. -/
theorem create_update_preserve_argument (sc : Faults) (t : Table) (a : Article)
    (hput : sc.putItemErr = none) :
    CreateArticle sc t a = (putItemTable t (marshalMap a), (some a, none)) ∧
    (UpdateArticle sc t a).1 = putItemTable t (marshalMap a) := by
  constructor <;> simp [CreateArticle, UpdateArticle, hput]

theorem create_update_preserve_argument_witness :
    (CreateArticle noFaults [] sampleArticle
      = (putItemTable [] (marshalMap sampleArticle), (some sampleArticle, none)) ∧
    (UpdateArticle noFaults [] sampleArticle).1
      = putItemTable [] (marshalMap sampleArticle)) :=
  create_update_preserve_argument noFaults [] sampleArticle rfl
